import Mathlib

/-
Verification of the normalize-and-load ingestion pipeline
(`scripts/ingest_datasets.py` together with the table schemas of
`bias_mitigation/data/schemas/datasets.py`).

The embedding models JSON values as an inductive type, the two parser
variants (`parse_bbq_file`, `parse_stereoset_file`) as Option-valued
functions (an exception caught by the `@safe` decorator is `none`), the
chunker as the list-slicing comprehension of the source, the database as
the list of committed rows with the declared uniqueness constraints
checked on insert, and the two orchestrators (`load_bbq`,
`load_stereoset`) as folds over the fixed source lists that accumulate
rows and log events.
-/

namespace BiasIngest

/-- JSON values as produced by json.loads: null, booleans, integers,
strings, arrays and objects (association lists).  Floating-point numbers
do not occur in the modelled source files. -/
inductive Json where
  | null : Json
  | bool : Bool → Json
  | int : Int → Json
  | str : String → Json
  | arr : List Json → Json
  | obj : List (String × Json) → Json

/-- Lookup of a key in a JSON object body, as Python dict indexing. -/
def dictGet? (kvs : List (String × Json)) (k : String) : Option Json :=
  match kvs with
  | [] => none
  | kv :: rest => if kv.1 = k then some kv.2 else dictGet? rest k

/-- Python `d.get(k, default)` on an object body. -/
def dictGetD (kvs : List (String × Json)) (k : String) (dflt : Json) : Json :=
  (dictGet? kvs k).getD dflt

/-- Python `d.get(k)`: absent keys give None. -/
def dictGetN (kvs : List (String × Json)) (k : String) : Json :=
  dictGetD kvs k Json.null

/-- `data[k]`: succeeds only on an object that has the key; indexing a
non-dict with a string key raises in Python, which is failure here. -/
def Json.get? : Json → String → Option Json
  | Json.obj kvs, k => dictGet? kvs k
  | _, _ => none

/-- Fetch a field that must validate as a string. -/
def getStr (j : Json) (k : String) : Option String :=
  match j.get? k with
  | some (Json.str s) => some s
  | _ => none

/-- Fetch a field that must validate as an integer. -/
def getInt (j : Json) (k : String) : Option Int :=
  match j.get? k with
  | some (Json.int n) => some n
  | _ => none

/-- Validate a JSON array as a list of strings (pydantic list of str). -/
def strList : List Json → Option (List String)
  | [] => some []
  | Json.str s :: rest => (strList rest).map (fun xs => s :: xs)
  | _ => none

/-- Fetch a field that must validate as a list of strings. -/
def getStrList (j : Json) (k : String) : Option (List String) :=
  match j.get? k with
  | some (Json.arr xs) => strList xs
  | _ => none

/-- Python truthiness: None, False, 0, empty string, empty list and
empty dict are falsy. -/
def pyTruthy : Json → Bool
  | Json.null => false
  | Json.bool b => b
  | Json.int n => n != 0
  | Json.str s => s != ""
  | Json.arr xs => !xs.isEmpty
  | Json.obj kvs => !kvs.isEmpty

/-- Python `a or b`: `a` when truthy, otherwise `b`. -/
def pyOr (a b : Json) : Json :=
  if pyTruthy a then a else b

/-- Python `for x in j`: arrays yield elements, dicts yield their keys,
strings yield their characters, anything else raises TypeError. -/
def pyIter : Json → Option (List Json)
  | Json.arr xs => some xs
  | Json.obj kvs => some (kvs.map (fun kv => Json.str kv.1))
  | Json.str s => some (s.toList.map (fun c => Json.str (String.mk [c])))
  | _ => none

/-- Python `str.capitalize`: first character uppercased, rest lowered. -/
def capitalize (s : String) : String :=
  match s.toList with
  | [] => ""
  | c :: cs => String.mk (c.toUpper :: cs.map Char.toLower)

/-- Embedded metadata record of an Entry (schema `AdditionalMetadata`). -/
structure AdditionalMetadata where
  subcategory : String
  stereotyped_groups : List String
  version : String
  source : String
deriving DecidableEq

/-- One Answer child of an Entry (schema `BBQAnswer`, minus the
surrogate/foreign keys that the ORM generates). -/
structure BBQAnswer where
  index : Nat
  text : String
  tag : String
deriving DecidableEq

/-- One Entry of the flat-category family (schema `BBQ`, minus the
surrogate primary key; `example_id` carries a unique constraint). -/
structure BBQ where
  example_id : Int
  question_index : String
  question_polarity : String
  context_condition : String
  category : String
  additional_metadata : AdditionalMetadata
  context : String
  question : String
  ans0 : String
  ans1 : String
  ans2 : String
  label : Int
  answers : List BBQAnswer
deriving DecidableEq

/-- `pair[1]` on an answer-info value: the second item of the 2-element
array is the tag; a short array raises IndexError. -/
def tagOf : Json → Option String
  | Json.arr xs =>
      (match xs.get? 1 with
       | some (Json.str t) => some t
       | _ => none)
  | _ => none

/-- One iteration of the `for i in range(3)` answer loop of
`parse_bbq_file`: `text = data[f'ansi']`,
`tag = data['answer_info'][f'ansi'][1]`. -/
def buildAnswer (data : Json) (i : Nat) : Option BBQAnswer := do
  let text ← getStr data ("ans" ++ toString i)
  let info ← data.get? "answer_info"
  let pair ← info.get? ("ans" ++ toString i)
  let tag ← tagOf pair
  pure { index := i, text := text, tag := tag }

/-- `AdditionalMetadata(**data['additional_metadata'])`. -/
def parseMetadata (data : Json) : Option AdditionalMetadata := do
  let m ← data.get? "additional_metadata"
  let subcategory ← getStr m "subcategory"
  let stereotyped_groups ← getStrList m "stereotyped_groups"
  let version ← getStr m "version"
  let source ← getStr m "source"
  pure { subcategory, stereotyped_groups, version, source }

/-- Body of the per-line loop of `parse_bbq_file`: build the three
Answers (indices 0, 1, 2), the metadata record, and the Entry; any
missing or ill-typed field is an exception, hence `none`. -/
def parseLine (cat : String) (data : Json) : Option BBQ := do
  let a0 ← buildAnswer data 0
  let a1 ← buildAnswer data 1
  let a2 ← buildAnswer data 2
  let add_meta ← parseMetadata data
  let example_id ← getInt data "example_id"
  let question_index ← getStr data "question_index"
  let question_polarity ← getStr data "question_polarity"
  let context_condition ← getStr data "context_condition"
  let context ← getStr data "context"
  let question ← getStr data "question"
  let ans0 ← getStr data "ans0"
  let ans1 ← getStr data "ans1"
  let ans2 ← getStr data "ans2"
  let label ← getInt data "label"
  pure { example_id, question_index, question_polarity, context_condition,
         category := cat, additional_metadata := add_meta, context, question,
         ans0, ans1, ans2, label, answers := [a0, a1, a2] }

/-- `parse_bbq_file`: the file is a list of lines, each line either
`some j` (the json.loads result) or `none` (a line that is not valid
JSON).  The `@safe` decorator turns the first exception into a failure
of the whole file. -/
def parse_bbq_file (lines : List (Option Json)) (cat : String) : Option (List BBQ) :=
  match lines with
  | [] => some []
  | o :: rest => do
      let j ← o
      let e ← parseLine cat j
      let es ← parse_bbq_file rest cat
      pure (e :: es)

/-- One Label child of a Sentence (schema `StereoSetLabel`, minus the
ORM-generated keys). -/
structure StereoSetLabel where
  label : String
  human_id : String
deriving DecidableEq

/-- One Sentence child of a Document (schema `StereoSetSentence`, minus
the surrogate keys; `sentence_id` carries a unique constraint). -/
structure StereoSetSentence where
  sentence : String
  sentence_id : String
  gold_label : String
  labels : List StereoSetLabel
deriving DecidableEq

/-- One Document of the nested family (schema `StereoSet`; the
source-supplied string `id` is the primary key). -/
structure StereoSet where
  id : String
  target : String
  bias_type : String
  context : String
  type : String
  sentences : List StereoSetSentence
deriving DecidableEq

/-- `StereoSetLabel(label=l['label'], human_id=l['human_id'])`. -/
def parseLabel (l : Json) : Option StereoSetLabel := do
  let label ← getStr l "label"
  let human_id ← getStr l "human_id"
  pure { label, human_id }

/-- The labels list comprehension over `s['labels']`. -/
def parseLabels : List Json → Option (List StereoSetLabel)
  | [] => some []
  | l :: rest => do
      let x ← parseLabel l
      let xs ← parseLabels rest
      pure (x :: xs)

/-- Build one Sentence from a raw sentence object of the file. -/
def parseSentence (s : Json) : Option StereoSetSentence := do
  let labelsJson ← s.get? "labels"
  let ls ← pyIter labelsJson
  let labels ← parseLabels ls
  let sentence ← getStr s "sentence"
  let sentence_id ← getStr s "id"
  let gold_label ← getStr s "gold_label"
  pure { sentence, sentence_id, gold_label, labels }

/-- The sentences loop over `d['sentences']`. -/
def parseSentences : List Json → Option (List StereoSetSentence)
  | [] => some []
  | s :: rest => do
      let x ← parseSentence s
      let xs ← parseSentences rest
      pure (x :: xs)

/-- Build one Document from a raw document object; the type
discriminator comes from the caller, not from the record. -/
def parseDoc (entry_type : String) (d : Json) : Option StereoSet := do
  let sJson ← d.get? "sentences"
  let ss ← pyIter sJson
  let sentences ← parseSentences ss
  let id ← getStr d "id"
  let target ← getStr d "target"
  let bias_type ← getStr d "bias_type"
  let context ← getStr d "context"
  pure { id, target, bias_type, context, type := entry_type, sentences }

/-- The document loop of `parse_stereoset_file`. -/
def parseDocs (entry_type : String) : List Json → Option (List StereoSet)
  | [] => some []
  | d :: rest => do
      let x ← parseDoc entry_type d
      let xs ← parseDocs entry_type rest
      pure (x :: xs)

/-- The discriminator-selection line of `parse_stereoset_file`:
`raw_data.get(entry_type) or raw_data.get(entry_type.capitalize()) or raw_data`
on the object body `kvs` of the data section. -/
def selectDocs (kvs : List (String × Json)) (entry_type : String) : Json :=
  pyOr (dictGetN kvs entry_type)
    (pyOr (dictGetN kvs (capitalize entry_type)) (Json.obj kvs))

/-- Locate the data section and select the document array:
`raw_data = raw.get('data', raw) if isinstance(raw, dict) else raw`
followed by the discriminator selection; calling `.get` on a non-dict
data section raises AttributeError, hence `none`. -/
def selectSection (raw : Json) (entry_type : String) : Option Json :=
  let raw_data := match raw with
    | Json.obj kvs => dictGetD kvs "data" raw
    | _ => raw
  match raw_data with
  | Json.obj kvs => some (selectDocs kvs entry_type)
  | _ => none

/-- `parse_stereoset_file`: `raw` is `some j` when json.load succeeds on
the file and `none` otherwise; any exception fails the whole file. -/
def parse_stereoset_file (raw : Option Json) (entry_type : String) :
    Option (List StereoSet) := do
  let r ← raw
  let sec ← selectSection r entry_type
  let ds ← pyIter sec
  parseDocs entry_type ds

/-- The chunking comprehension of `load_bbq` and `load_stereoset`:
`[entries[i : i + chunk_size] for i in range(0, len(entries), chunk_size)]`.
`range(0, N, C)` enumerates `(N + C - 1) / C` start offsets. -/
def chunks {α : Type} (C : Nat) (l : List α) : List (List α) :=
  (List.range ((l.length + C - 1) / C)).map (fun k => (l.drop (k * C)).take C)

/-- The committed `example_id` column of the BBQ table. -/
def bbqIds (db : List BBQ) : List Int :=
  db.map (fun e => e.example_id)

/-- `insert_chunk` for BBQ rows: the chunk commits in one nested
sub-transaction; the unique index on `example_id` makes the flush fail
(and the savepoint roll back) exactly when a duplicate appears, leaving
the table unchanged and returning a Failure instead of raising. -/
def insertBBQChunk (db chunk : List BBQ) : Option (List BBQ) :=
  if (bbqIds (db ++ chunk)).Nodup then some (db ++ chunk) else none

/-- The `asyncio.gather` over `insert_chunk` futures for one BBQ source:
every chunk is attempted; a failed chunk contributes `false` and leaves
the table as it was. -/
def loadBBQChunks (db : List BBQ) : List (List BBQ) → List BBQ × List Bool
  | [] => (db, [])
  | c :: cs =>
    match insertBBQChunk db c with
    | some db1 =>
        let r := loadBBQChunks db1 cs
        (r.1, true :: r.2)
    | none =>
        let r := loadBBQChunks db cs
        (r.1, false :: r.2)

/-- The committed primary-key column of the StereoSet table. -/
def stereoDocIds (db : List StereoSet) : List String :=
  db.map (fun d => d.id)

/-- The committed `sentence_id` column of the sentence table. -/
def stereoSentIds (db : List StereoSet) : List String :=
  (db.map (fun d => d.sentences.map (fun s => s.sentence_id))).flatten

/-- `insert_chunk` for StereoSet rows: the primary key on the document
`id` and the unique index on `sentence_id` make the chunk fail exactly
when either column would gain a duplicate. -/
def insertStereoChunk (db chunk : List StereoSet) : Option (List StereoSet) :=
  if (stereoDocIds (db ++ chunk)).Nodup ∧ (stereoSentIds (db ++ chunk)).Nodup
  then some (db ++ chunk) else none

/-- The gather over `insert_chunk` futures for one StereoSet source. -/
def loadStereoChunks (db : List StereoSet) :
    List (List StereoSet) → List StereoSet × List Bool
  | [] => (db, [])
  | c :: cs =>
    match insertStereoChunk db c with
    | some db1 =>
        let r := loadStereoChunks db1 cs
        (r.1, true :: r.2)
    | none =>
        let r := loadStereoChunks db cs
        (r.1, false :: r.2)

/-- Log events emitted by the orchestrators: the missing-file warning,
the parse-failure log, one log per failed chunk, and the
`Loaded N entries` info line. -/
inductive LogEvent where
  | warnMissing : String → LogEvent
  | errorParse : String → LogEvent
  | errorInsert : String → LogEvent
  | infoLoaded : String → Nat → LogEvent
deriving DecidableEq

/-- Whether a log event is the `Loaded N entries` report. -/
def isLoadedReport : LogEvent → Bool
  | LogEvent.infoLoaded _ _ => true
  | _ => false

/-- The BBQ directory as the orchestrator sees it: whether
`base_path / 'bbq'` exists, and the line list of each present
`cat.jsonl` file, keyed by category name. -/
structure BBQDataset where
  dirExists : Bool
  files : String → Option (List (Option Json))

/-- The fixed category list of `load_bbq`. -/
def categories : List String :=
  ["Age", "Disability_status", "Gender_identity", "Nationality",
   "Physical_appearance", "Race_ethnicity", "Race_x_SES", "Race_x_gender",
   "Religion", "SES", "Sexual_orientation"]

/-- The per-category body of `load_bbq`: skip a missing file with a
warning; on a parse failure log and continue; otherwise chunk with
`chunk_size = 1000`, gather the inserts, and either log every failure
or log the `Loaded N entries` line. -/
def processCategory (fs : BBQDataset) (st : List BBQ × List LogEvent)
    (cat : String) : List BBQ × List LogEvent :=
  match fs.files cat with
  | none => (st.1, st.2 ++ [LogEvent.warnMissing cat])
  | some lines =>
    match parse_bbq_file lines cat with
    | none => (st.1, st.2 ++ [LogEvent.errorParse cat])
    | some entries =>
      let r := loadBBQChunks st.1 (chunks 1000 entries)
      let nfail := r.2.count false
      if nfail = 0 then
        (r.1, st.2 ++ [LogEvent.infoLoaded cat entries.length])
      else
        (r.1, st.2 ++ List.replicate nfail (LogEvent.errorInsert cat))

/-- The category loop of `load_bbq`. -/
def loadCats (fs : BBQDataset) (st : List BBQ × List LogEvent) :
    List String → List BBQ × List LogEvent
  | [] => st
  | cat :: rest => loadCats fs (processCategory fs st cat) rest

/-- `load_bbq`: a missing family directory raises FileNotFoundError;
otherwise every category of the fixed list is processed. -/
def load_bbq (fs : BBQDataset) (db : List BBQ) :
    Except String (List BBQ × List LogEvent) :=
  if fs.dirExists then Except.ok (loadCats fs (db, []) categories)
  else Except.error "BBQ directory not found"

/-- The StereoSet directory: whether `base_path / 'stereoset'` exists,
and for each present file name the json.load result (`some (some j)`
present and valid, `some none` present but unparseable, `none` absent). -/
structure StereoDataset where
  dirExists : Bool
  files : String → Option (Option Json)

/-- The fixed (filename, entry_type) list of `load_stereoset`. -/
def stereoFiles : List (String × String) :=
  [("intersentence.json", "intersentence"),
   ("intrasentence.json", "intrasentence")]

/-- The per-file body of `load_stereoset`, mirror of `processCategory`. -/
def processStereoFile (fs : StereoDataset)
    (st : List StereoSet × List LogEvent) (fe : String × String) :
    List StereoSet × List LogEvent :=
  match fs.files fe.1 with
  | none => (st.1, st.2 ++ [LogEvent.warnMissing fe.1])
  | some raw =>
    match parse_stereoset_file raw fe.2 with
    | none => (st.1, st.2 ++ [LogEvent.errorParse fe.1])
    | some entries =>
      let r := loadStereoChunks st.1 (chunks 1000 entries)
      let nfail := r.2.count false
      if nfail = 0 then
        (r.1, st.2 ++ [LogEvent.infoLoaded fe.1 entries.length])
      else
        (r.1, st.2 ++ List.replicate nfail (LogEvent.errorInsert fe.1))

/-- The file loop of `load_stereoset`. -/
def loadStereoFiles (fs : StereoDataset) (st : List StereoSet × List LogEvent) :
    List (String × String) → List StereoSet × List LogEvent
  | [] => st
  | fe :: rest => loadStereoFiles fs (processStereoFile fs st fe) rest

/-- `load_stereoset`: a missing family directory raises
FileNotFoundError; otherwise both type files are processed. -/
def load_stereoset (fs : StereoDataset) (db : List StereoSet) :
    Except String (List StereoSet × List LogEvent) :=
  if fs.dirExists then Except.ok (loadStereoFiles fs (db, []) stereoFiles)
  else Except.error "StereoSet directory not found"

/-! ### Concrete sample data used by witnesses and counterexamples -/

/-- A well-formed flat-category line with the given `example_id`. -/
def mkLine (eid : Int) : Json :=
  Json.obj
    [("example_id", Json.int eid),
     ("question_index", Json.str "1"),
     ("question_polarity", Json.str "neg"),
     ("context_condition", Json.str "ambig"),
     ("context", Json.str "ctx"),
     ("question", Json.str "q"),
     ("ans0", Json.str "a0"),
     ("ans1", Json.str "a1"),
     ("ans2", Json.str "a2"),
     ("label", Json.int 0),
     ("answer_info",
       Json.obj
         [("ans0", Json.arr [Json.str "a0", Json.str "t0"]),
          ("ans1", Json.arr [Json.str "a1", Json.str "t1"]),
          ("ans2", Json.arr [Json.str "a2", Json.str "t2"])]),
     ("additional_metadata",
       Json.obj
         [("subcategory", Json.str "sub"),
          ("stereotyped_groups", Json.arr [Json.str "g"]),
          ("version", Json.str "1"),
          ("source", Json.str "src")])]

/-- The Entry `parseLine "Age"` produces from `mkLine eid`. -/
def mkEntry (eid : Int) : BBQ :=
  { example_id := eid
    question_index := "1"
    question_polarity := "neg"
    context_condition := "ambig"
    category := "Age"
    additional_metadata :=
      { subcategory := "sub", stereotyped_groups := ["g"],
        version := "1", source := "src" }
    context := "ctx"
    question := "q"
    ans0 := "a0"
    ans1 := "a1"
    ans2 := "a2"
    label := 0
    answers := [{ index := 0, text := "a0", tag := "t0" },
                { index := 1, text := "a1", tag := "t1" },
                { index := 2, text := "a2", tag := "t2" }] }

/-- The spec's end-to-end example file: 3 lines, the second duplicating
`example_id` 5. -/
def dupFile : List (Option Json) :=
  [some (mkLine 5), some (mkLine 5), some (mkLine 7)]

/-- A file whose second line is not valid JSON. -/
def badFile : List (Option Json) :=
  [some (mkLine 1), none]

/-- A BBQ directory holding only the `Age` category, with `badFile`. -/
def fsA : BBQDataset :=
  { dirExists := true
    files := fun c => if c = "Age" then some badFile else none }

/-- A BBQ directory holding only the `Age` category, with `dupFile`. -/
def fsDup : BBQDataset :=
  { dirExists := true
    files := fun c => if c = "Age" then some dupFile else none }

/-- A data section whose lowercase discriminator entry is present but
falsy (an empty array), next to a truthy capitalized entry. -/
def falsySection : List (String × Json) :=
  [("intersentence", Json.arr []),
   ("Intersentence", Json.arr [Json.obj []])]

/-- A data section carrying the lowercase discriminator key. -/
def lowerSection : List (String × Json) :=
  [("intersentence", Json.arr [Json.obj []])]

/-- A data section carrying only the capitalized discriminator key. -/
def upperSection : List (String × Json) :=
  [("Intersentence", Json.arr [Json.obj []])]

/-- A data section carrying neither discriminator key. -/
def bareSection : List (String × Json) :=
  [("other", Json.null)]

/-- A minimal Document with the given source-supplied id. -/
def mkDoc (i : String) : StereoSet :=
  { id := i, target := "t", bias_type := "gender", context := "c",
    type := "intersentence", sentences := [] }

/-- A minimal Sentence with the given `sentence_id`. -/
def mkSentence (sid : String) : StereoSetSentence :=
  { sentence := "s", sentence_id := sid, gold_label := "g", labels := [] }

/-- A Document holding one Sentence with the given `sentence_id`. -/
def mkDocS (i sid : String) : StereoSet :=
  { id := i, target := "t", bias_type := "gender", context := "c",
    type := "intersentence", sentences := [mkSentence sid] }

/-- The raw JSON object `parseSentence` turns into `mkSentence sid`. -/
def sentJson (sid : String) : Json :=
  Json.obj
    [("sentence", Json.str "s"), ("id", Json.str sid),
     ("gold_label", Json.str "g"), ("labels", Json.arr [])]

/-- The raw JSON object `parseDoc` turns into `mkDocS i sid`. -/
def docJson (i sid : String) : Json :=
  Json.obj
    [("id", Json.str i), ("target", Json.str "t"),
     ("bias_type", Json.str "gender"), ("context", Json.str "c"),
     ("sentences", Json.arr [sentJson sid])]

/-- A nested-document file whose two documents share `sentence_id` s1. -/
def stereoDupRaw : Json :=
  Json.obj
    [("data", Json.obj
      [("intersentence", Json.arr [docJson "d1" "s1", docJson "d2" "s1"])])]

/-- A StereoSet directory holding only the intersentence file, with
`stereoDupRaw`. -/
def ssDup : StereoDataset :=
  { dirExists := true
    files := fun f =>
      if f = "intersentence.json" then some (some stereoDupRaw) else none }

/-! ### Helper lemmas about the chunker -/

/-- The number of chunks is the number of offsets `range(0, N, C)` yields. -/
theorem chunks_length {α : Type} (C : Nat) (l : List α) :
    (chunks C l).length = (l.length + C - 1) / C := by
  simp [chunks]

/-- Chunking the empty sequence yields no chunks. -/
theorem chunks_nil {α : Type} (C : Nat) : chunks C ([] : List α) = [] := by
  rcases Nat.eq_zero_or_pos C with h | h
  · subst h; simp [chunks]
  · simp [chunks, Nat.div_eq_of_lt (show C - 1 < C by omega)]

/-- Ceiling-division step used to peel the first chunk. -/
theorem ceilDiv_succ (n C : Nat) (hC : 0 < C) (hn : 0 < n) :
    (n + C - 1) / C = (n - C + C - 1) / C + 1 := by
  rcases le_or_lt n C with h | h
  · have hL : (n + C - 1) / C = 1 := by
      rw [show n + C - 1 = (n - 1) + 1 * C by omega, Nat.add_mul_div_right _ _ hC,
        Nat.div_eq_of_lt (by omega)]
    have hR : (n - C + C - 1) / C = 0 := Nat.div_eq_of_lt (by omega)
    omega
  · rw [show n + C - 1 = (n - C + C - 1) + C by omega, Nat.add_div_right _ hC]

/-- Peeling lemma: for a positive chunk size and a nonempty sequence the
chunk list is the first slice followed by the chunks of the rest. -/
theorem chunks_cons {α : Type} (C : Nat) (hC : 0 < C) (l : List α) (hl : l ≠ []) :
    chunks C l = l.take C :: chunks C (l.drop C) := by
  have hn : 0 < l.length := List.length_pos.mpr hl
  have hlen : (l.length + C - 1) / C = ((l.drop C).length + C - 1) / C + 1 := by
    rw [List.length_drop]
    exact ceilDiv_succ l.length C hC hn
  rw [chunks, hlen, List.range_succ_eq_map, List.map_cons]
  congr 1
  · simp
  · rw [chunks, List.map_map]
    congr 1
    funext k
    simp only [Function.comp_apply, List.drop_drop]
    congr 2
    simp [Nat.succ_mul]
    omega

/-- Chunking is lossless and order-preserving: the concatenation of the
chunks is the original sequence. -/
theorem chunks_flatten {α : Type} (C : Nat) (hC : 0 < C) (l : List α) :
    (chunks C l).flatten = l := by
  have H : ∀ n (l : List α), l.length ≤ n → (chunks C l).flatten = l := by
    intro n
    induction n with
    | zero =>
      intro l hl
      have hnil : l = [] := by cases l <;> simp_all
      subst hnil
      simp [chunks_nil]
    | succ n ih =>
      intro l hl
      cases l with
      | nil => simp [chunks_nil]
      | cons a l2 =>
        have hd : ((a :: l2).drop C).length ≤ n := by
          simp only [List.length_drop, List.length_cons]
          simp only [List.length_cons] at hl
          omega
        rw [chunks_cons C hC _ (List.cons_ne_nil a l2), List.flatten_cons,
          ih _ hd, List.take_append_drop]
  exact H l.length l le_rfl

/-- Every chunk is a contiguous slice of the input at its offset. -/
theorem chunks_get {α : Type} (C : Nat) (l : List α) (k : Nat)
    (hk : k < (chunks C l).length) :
    (chunks C l).get ⟨k, hk⟩ = (l.drop (k * C)).take C := by
  simp [chunks]

/-- No chunk exceeds the chunk size. -/
theorem chunks_le {α : Type} (C : Nat) (l : List α) :
    ∀ c ∈ chunks C l, c.length ≤ C := by
  intro c hc
  simp only [chunks, List.mem_map, List.mem_range] at hc
  obtain ⟨k, _, rfl⟩ := hc
  simp [List.length_take]

/-- Every chunk except possibly the last has exactly the chunk size. -/
theorem chunks_full {α : Type} (C : Nat) (hC : 0 < C) (l : List α) (k : Nat)
    (hk : k + 1 < (chunks C l).length) :
    ((chunks C l).get ⟨k, by omega⟩).length = C := by
  rw [chunks_get, List.length_take, List.length_drop]
  rw [chunks_length] at hk
  have h3 : (k + 2) * C ≤ l.length + C - 1 :=
    (Nat.le_div_iff_mul_le hC).mp (by omega)
  rw [Nat.add_mul] at h3
  omega

/-! ### Helper lemmas about the batch loader -/

/-- Every chunk of a source receives an outcome: a failed chunk does not
abort the gather. -/
theorem loadBBQChunks_length (db : List BBQ) (cs : List (List BBQ)) :
    (loadBBQChunks db cs).2.length = cs.length := by
  induction cs generalizing db with
  | nil => rfl
  | cons c cs ih =>
    cases h : insertBBQChunk db c with
    | some db1 => simp [loadBBQChunks, h, ih]
    | none => simp [loadBBQChunks, h, ih]

/-- A successful insert appends the chunk to the table. -/
theorem insertBBQChunk_some (db c db1 : List BBQ)
    (h : insertBBQChunk db c = some db1) :
    db1 = db ++ c ∧ (bbqIds (db ++ c)).Nodup := by
  unfold insertBBQChunk at h
  split at h
  · exact ⟨(Option.some_injective _ h).symm, by assumption⟩
  · cases h

/-- A chunk that contains two rows with the same `example_id` fails
against every table state. -/
theorem insertBBQChunk_bad (d c : List BBQ) (hbad : ¬ (bbqIds c).Nodup) :
    insertBBQChunk d c = none := by
  unfold insertBBQChunk
  rw [if_neg]
  intro h
  apply hbad
  have hsub : List.Sublist (bbqIds c) (bbqIds (d ++ c)) :=
    List.Sublist.map _ (List.sublist_append_right d c)
  exact List.Nodup.sublist hsub h

/-- The `example_id` column never gains a duplicate: loading any chunk
list preserves distinctness of the committed ids. -/
theorem loadBBQChunks_nodup (db : List BBQ) (cs : List (List BBQ))
    (hdb : (bbqIds db).Nodup) : (bbqIds (loadBBQChunks db cs).1).Nodup := by
  induction cs generalizing db with
  | nil => exact hdb
  | cons c cs ih =>
    cases h : insertBBQChunk db c with
    | some db1 =>
      obtain ⟨rfl, hnd⟩ := insertBBQChunk_some db c db1 h
      simp only [loadBBQChunks, h]
      exact ih (db ++ c) hnd
    | none =>
      simp only [loadBBQChunks, h]
      exact ih db hdb

/-- When the whole batch is conflict-free every chunk succeeds and the
table gains exactly the concatenation of the chunks. -/
theorem loadBBQChunks_all_ok (db : List BBQ) (cs : List (List BBQ))
    (h : (bbqIds (db ++ cs.flatten)).Nodup) :
    loadBBQChunks db cs = (db ++ cs.flatten, List.replicate cs.length true) := by
  induction cs generalizing db with
  | nil => simp [loadBBQChunks]
  | cons c cs ih =>
    have h1 : (bbqIds (db ++ c)).Nodup := by
      have hsub : List.Sublist (bbqIds (db ++ c)) (bbqIds (db ++ (c :: cs).flatten)) := by
        apply List.Sublist.map
        rw [List.flatten_cons, ← List.append_assoc]
        exact List.sublist_append_left _ _
      exact List.Nodup.sublist hsub h
    have hins : insertBBQChunk db c = some (db ++ c) := by
      unfold insertBBQChunk
      rw [if_pos h1]
    have h2 : (bbqIds ((db ++ c) ++ cs.flatten)).Nodup := by
      rw [List.append_assoc, ← List.flatten_cons]
      exact h
    simp only [loadBBQChunks, hins, ih (db ++ c) h2]
    simp [List.flatten_cons, List.append_assoc, List.replicate_succ]

/-- A chunk whose insert fails is skipped: the rest of the run proceeds
exactly as if that chunk had not been submitted, and its outcome is the
single interleaved failure. -/
theorem loadBBQChunks_skip (db : List BBQ) (cs : List (List BBQ)) (k : Nat)
    (hk : k < cs.length) (hbad : ¬ (bbqIds (cs.get ⟨k, hk⟩)).Nodup) :
    (loadBBQChunks db cs).1 = (loadBBQChunks db (cs.eraseIdx k)).1
    ∧ (loadBBQChunks db cs).2
      = ((loadBBQChunks db (cs.eraseIdx k)).2).insertIdx k false := by
  induction cs generalizing db k with
  | nil => exact absurd hk (by simp)
  | cons c cs ih =>
    cases k with
    | zero =>
      have hfail : insertBBQChunk db c = none :=
        insertBBQChunk_bad db c (by simpa using hbad)
      simp [loadBBQChunks, hfail, List.eraseIdx, List.insertIdx]
    | succ k =>
      have hk2 : k < cs.length := by simpa using hk
      have hbad2 : ¬ (bbqIds (cs.get ⟨k, hk2⟩)).Nodup := by simpa using hbad
      cases h : insertBBQChunk db c with
      | some db1 =>
        have hrec := ih db1 k hk2 hbad2
        simp [loadBBQChunks, h, List.eraseIdx_cons_succ, List.insertIdx, hrec.1, hrec.2]
      | none =>
        have hrec := ih db k hk2 hbad2
        simp [loadBBQChunks, h, List.eraseIdx_cons_succ, List.insertIdx, hrec.1, hrec.2]

/-- Mirror of `loadBBQChunks_length` for the nested family. -/
theorem loadStereoChunks_length (db : List StereoSet) (cs : List (List StereoSet)) :
    (loadStereoChunks db cs).2.length = cs.length := by
  induction cs generalizing db with
  | nil => rfl
  | cons c cs ih =>
    cases h : insertStereoChunk db c with
    | some db1 => simp [loadStereoChunks, h, ih]
    | none => simp [loadStereoChunks, h, ih]

/-- A successful StereoSet insert appends the chunk to the table, and
both unique columns stay duplicate-free. -/
theorem insertStereoChunk_some (db c db1 : List StereoSet)
    (h : insertStereoChunk db c = some db1) :
    db1 = db ++ c ∧ (stereoDocIds (db ++ c)).Nodup
    ∧ (stereoSentIds (db ++ c)).Nodup := by
  unfold insertStereoChunk at h
  split at h
  · next hok => exact ⟨(Option.some_injective _ h).symm, hok.1, hok.2⟩
  · cases h

/-- `stereoSentIds` distributes over append. -/
theorem stereoSentIds_append (a b : List StereoSet) :
    stereoSentIds (a ++ b) = stereoSentIds a ++ stereoSentIds b := by
  simp [stereoSentIds, List.map_append, List.flatten_append]

/-- Persisting a Sentence whose `sentence_id` is already committed
fails the whole chunk: the unique index is corpus-wide. -/
theorem insertStereoChunk_sent_dup (db c : List StereoSet) (sid : String)
    (h1 : sid ∈ stereoSentIds db) (h2 : sid ∈ stereoSentIds c) :
    insertStereoChunk db c = none := by
  unfold insertStereoChunk
  rw [if_neg]
  intro h
  have hnd := h.2
  rw [stereoSentIds_append, List.nodup_append] at hnd
  exact hnd.2.2 h1 h2

/-- The `sentence_id` column never gains a duplicate: loading any chunk
list preserves distinctness of the committed sentence ids. -/
theorem loadStereoChunks_sent_nodup (db : List StereoSet)
    (cs : List (List StereoSet)) (hdb : (stereoSentIds db).Nodup) :
    (stereoSentIds (loadStereoChunks db cs).1).Nodup := by
  induction cs generalizing db with
  | nil => exact hdb
  | cons c cs ih =>
    cases h : insertStereoChunk db c with
    | some db1 =>
      obtain ⟨rfl, _, hnd⟩ := insertStereoChunk_some db c db1 h
      simp only [loadStereoChunks, h]
      exact ih (db ++ c) hnd
    | none =>
      simp only [loadStereoChunks, h]
      exact ih db hdb

/-- Mirror of `loadBBQChunks_no_fail` for the nested family. -/
theorem loadStereoChunks_no_fail (db : List StereoSet)
    (cs : List (List StereoSet))
    (h : (loadStereoChunks db cs).2.count false = 0) :
    (loadStereoChunks db cs).1 = db ++ cs.flatten := by
  induction cs generalizing db with
  | nil => simp [loadStereoChunks]
  | cons c cs ih =>
    cases hins : insertStereoChunk db c with
    | some db1 =>
      obtain ⟨rfl, _, _⟩ := insertStereoChunk_some db c db1 hins
      simp only [loadStereoChunks, hins] at h ⊢
      have h2 : (loadStereoChunks (db ++ c) cs).2.count false = 0 := by
        simpa [List.count_cons] using h
      rw [ih _ h2]
      simp [List.append_assoc]
    | none =>
      exfalso
      simp only [loadStereoChunks, hins] at h
      simp [List.count_cons] at h

/-- Persisting a Document whose `id` is already committed fails the
whole chunk: the string primary key is corpus-wide unique. -/
theorem insertStereoChunk_dup (db c : List StereoSet) (d : StereoSet)
    (hd : d ∈ c) (hin : d.id ∈ stereoDocIds db) :
    insertStereoChunk db c = none := by
  unfold insertStereoChunk
  rw [if_neg]
  intro h
  have hnd : (stereoDocIds (db ++ c)).Nodup := h.1
  unfold stereoDocIds at hnd hin
  rw [List.map_append] at hnd
  rw [List.nodup_append] at hnd
  exact hnd.2.2 hin (List.mem_map_of_mem _ hd)

/-! ### Helper lemmas about the flat-category parser -/

/-- Inversion of one monadic bind on Option. -/
theorem bindSome {α β : Type} {x : Option α} {f : α → Option β} {b : β}
    (h : x >>= f = some b) : ∃ a, x = some a ∧ f a = some b := by
  cases x with
  | none => cases h
  | some a => exact ⟨a, rfl, h⟩

/-- The answer built at loop index `i` carries index `i`. -/
theorem buildAnswer_index (data : Json) (i : Nat) (a : BBQAnswer)
    (h : buildAnswer data i = some a) : a.index = i := by
  simp only [buildAnswer, Option.bind_eq_bind, Option.bind_eq_some, Option.pure_def,
    Option.some.injEq] at h
  obtain ⟨t, ht, info, hinfo, p, hp, tag, htag, rfl⟩ := h
  rfl

/-- A parsed Entry carries exactly the three Answers of the loop, with
indices 0, 1, 2. -/
theorem parseLine_answers (cat : String) (j : Json) (e : BBQ)
    (h : parseLine cat j = some e) :
    e.answers.map BBQAnswer.index = [0, 1, 2] := by
  rw [parseLine] at h
  obtain ⟨a0, h0, h⟩ := bindSome h
  obtain ⟨a1, h1, h⟩ := bindSome h
  obtain ⟨a2, h2, h⟩ := bindSome h
  obtain ⟨m, hm, h⟩ := bindSome h
  obtain ⟨i1, hi1, h⟩ := bindSome h
  obtain ⟨s1, hs1, h⟩ := bindSome h
  obtain ⟨s2, hs2, h⟩ := bindSome h
  obtain ⟨s3, hs3, h⟩ := bindSome h
  obtain ⟨s4, hs4, h⟩ := bindSome h
  obtain ⟨s5, hs5, h⟩ := bindSome h
  obtain ⟨s6, hs6, h⟩ := bindSome h
  obtain ⟨s7, hs7, h⟩ := bindSome h
  obtain ⟨s8, hs8, h⟩ := bindSome h
  obtain ⟨i2, hi2, h⟩ := bindSome h
  cases h
  simp [buildAnswer_index _ _ _ h0, buildAnswer_index _ _ _ h1,
    buildAnswer_index _ _ _ h2]

/-- Parsing a valid file yields one Entry per line. -/
theorem parse_bbq_file_length (lines : List (Option Json)) (cat : String)
    (entries : List BBQ) (h : parse_bbq_file lines cat = some entries) :
    entries.length = lines.length := by
  induction lines generalizing entries with
  | nil =>
    simp only [parse_bbq_file, Option.some.injEq] at h
    subst h
    rfl
  | cons o rest ih =>
    simp only [parse_bbq_file, Option.bind_eq_bind, Option.bind_eq_some, Option.pure_def,
      Option.some.injEq] at h
    obtain ⟨j, hj, e, he, es, hes, rfl⟩ := h
    simp [ih es hes]

/-- Every Entry of a parsed file comes from its line via `parseLine`. -/
theorem parse_bbq_file_mem (lines : List (Option Json)) (cat : String)
    (entries : List BBQ) (h : parse_bbq_file lines cat = some entries) :
    ∀ e ∈ entries, ∃ j, parseLine cat j = some e := by
  induction lines generalizing entries with
  | nil =>
    simp only [parse_bbq_file, Option.some.injEq] at h
    subst h
    intro e he
    cases he
  | cons o rest ih =>
    simp only [parse_bbq_file, Option.bind_eq_bind, Option.bind_eq_some, Option.pure_def,
      Option.some.injEq] at h
    obtain ⟨j, hj, e, he, es, hes, rfl⟩ := h
    intro x hx
    rcases List.mem_cons.mp hx with rfl | hmem
    · exact ⟨j, he⟩
    · exact ih es hes x hmem

/-- A single bad line fails the whole file: the exception raised inside
the loop escapes to the `@safe` wrapper. -/
theorem parse_bbq_file_fail (lines : List (Option Json)) (cat : String)
    (o : Option Json) (ho : o ∈ lines) (hbad : o.bind (parseLine cat) = none) :
    parse_bbq_file lines cat = none := by
  induction lines with
  | nil => cases ho
  | cons p rest ih =>
    rcases List.mem_cons.mp ho with rfl | hmem
    · cases o with
      | none => simp [parse_bbq_file]
      | some j =>
        simp only [Option.some_bind] at hbad
        simp [parse_bbq_file, hbad]
    · have hrest := ih hmem
      cases p with
      | none => simp [parse_bbq_file]
      | some j =>
        cases hp : parseLine cat j with
        | none => simp [parse_bbq_file, hp]
        | some e => simp [parse_bbq_file, hp, hrest]

/-! ### Remaining auxiliary lemmas -/

/-- `bbqIds` distributes over append. -/
theorem bbqIds_append (a b : List BBQ) :
    bbqIds (a ++ b) = bbqIds a ++ bbqIds b :=
  List.map_append _ _ _

/-- A run without failed chunks commits exactly the concatenation of
its chunks. -/
theorem loadBBQChunks_no_fail (db : List BBQ) (cs : List (List BBQ))
    (h : (loadBBQChunks db cs).2.count false = 0) :
    (loadBBQChunks db cs).1 = db ++ cs.flatten := by
  induction cs generalizing db with
  | nil => simp [loadBBQChunks]
  | cons c cs ih =>
    cases hins : insertBBQChunk db c with
    | some db1 =>
      obtain ⟨rfl, _⟩ := insertBBQChunk_some db c db1 hins
      simp only [loadBBQChunks, hins] at h ⊢
      have h2 : (loadBBQChunks (db ++ c) cs).2.count false = 0 := by
        simpa [List.count_cons] using h
      rw [ih _ h2]
      simp [List.append_assoc]
    | none =>
      exfalso
      simp only [loadBBQChunks, hins] at h
      simp [List.count_cons] at h

/-! ### The claims -/

/-- Claim C1: for every valid flat-category file with N well-formed
lines the parse-and-load pipeline produces exactly N Entries, each
carrying exactly 3 Answers with indices 0, 1, 2, and an empty file
yields zero Entries. -/
theorem C1_parse_and_load (lines : List (Option Json)) (cat : String)
    (entries : List BBQ) (db : List BBQ)
    (h : parse_bbq_file lines cat = some entries)
    (hu : (bbqIds (db ++ entries)).Nodup) :
    entries.length = lines.length
    ∧ (∀ e ∈ entries, e.answers.map BBQAnswer.index = [0, 1, 2])
    ∧ (loadBBQChunks db (chunks 1000 entries)).1 = db ++ entries
    ∧ parse_bbq_file [] cat = some [] := by
  refine ⟨parse_bbq_file_length _ _ _ h, ?_, ?_, rfl⟩
  · intro e he
    obtain ⟨j, hj⟩ := parse_bbq_file_mem _ _ _ h e he
    exact parseLine_answers _ _ _ hj
  · have hjoin : (chunks 1000 entries).flatten = entries :=
      chunks_flatten 1000 (by omega) entries
    have hall := loadBBQChunks_all_ok db (chunks 1000 entries) (by rw [hjoin]; exact hu)
    simp [hall, hjoin]

/-- Compliance check of C1 on a concrete two-line file. -/
theorem C1_parse_and_load_witness :
    ([mkEntry 1, mkEntry 2] : List BBQ).length
      = [some (mkLine 1), some (mkLine 2)].length
    ∧ (∀ e ∈ [mkEntry 1, mkEntry 2], e.answers.map BBQAnswer.index = [0, 1, 2])
    ∧ (loadBBQChunks [] (chunks 1000 [mkEntry 1, mkEntry 2])).1
      = [] ++ [mkEntry 1, mkEntry 2]
    ∧ parse_bbq_file [] "Age" = some [] :=
  C1_parse_and_load [some (mkLine 1), some (mkLine 2)] "Age"
    [mkEntry 1, mkEntry 2] [] (by rfl) (by decide)

/-- Claim C2: for chunk size C ≥ 1 (1000 in the orchestrators) the
Chunker yields ceil(N/C) chunks, each the contiguous slice of the input
at its offset (hence non-overlapping and order-preserving), no chunk
longer than C, every chunk except possibly the last of size exactly C,
and concatenating the chunks in order rebuilds the input exactly. -/
theorem C2_chunker {α : Type} (C : Nat) (l : List α) (hC : 1 ≤ C) :
    (chunks C l).length = (l.length + C - 1) / C
    ∧ (∀ k (hk : k < (chunks C l).length),
        (chunks C l).get ⟨k, hk⟩ = (l.drop (k * C)).take C)
    ∧ (∀ c ∈ chunks C l, c.length ≤ C)
    ∧ (∀ k (hk : k + 1 < (chunks C l).length),
        ((chunks C l).get ⟨k, by omega⟩).length = C)
    ∧ (chunks C l).flatten = l := by
  refine ⟨chunks_length C l, ?_, chunks_le C l, ?_, chunks_flatten C hC l⟩
  · intro k hk
    exact chunks_get C l k hk
  · intro k hk
    exact chunks_full C hC l k hk

/-- Compliance check of C2 at C = 3 on a 7-element list. -/
theorem C2_chunker_witness :
    (chunks 3 [1, 2, 3, 4, 5, 6, 7]).length = (7 + 3 - 1) / 3
    ∧ (∀ k (hk : k < (chunks 3 [1, 2, 3, 4, 5, 6, 7]).length),
        (chunks 3 [1, 2, 3, 4, 5, 6, 7]).get ⟨k, hk⟩
          = ([1, 2, 3, 4, 5, 6, 7].drop (k * 3)).take 3)
    ∧ (∀ c ∈ chunks 3 [1, 2, 3, 4, 5, 6, 7], c.length ≤ 3)
    ∧ (∀ k (hk : k + 1 < (chunks 3 [1, 2, 3, 4, 5, 6, 7]).length),
        ((chunks 3 [1, 2, 3, 4, 5, 6, 7]).get ⟨k, by omega⟩).length = 3)
    ∧ (chunks 3 [1, 2, 3, 4, 5, 6, 7]).flatten = [1, 2, 3, 4, 5, 6, 7] :=
  C2_chunker 3 [1, 2, 3, 4, 5, 6, 7] (by decide)

/-- Claim C3 counterexample: the spec's 3-line file whose second line
duplicates `example_id` 5 parses to 3 Entries that fall into ONE chunk
(size 1000); the duplicate fails that single chunk, so the pipeline
loads 0 Entries — not the 2 Entries the claim asserts — and reports
exactly 1 chunk failure. -/
theorem C3_counterexample :
    parse_bbq_file dupFile "Age" = some [mkEntry 5, mkEntry 5, mkEntry 7]
    ∧ loadBBQChunks [] (chunks 1000 [mkEntry 5, mkEntry 5, mkEntry 7])
      = ([], [false])
    ∧ (loadBBQChunks [] (chunks 1000 [mkEntry 5, mkEntry 5, mkEntry 7])).1.length
      ≠ 2 := by
  refine ⟨by rfl, by rfl, by decide⟩

/-- Claim C3 (amended): two Entries with the same `example_id`, and
likewise two Sentences with the same `sentence_id`, never both persist.
Loaded in different chunks they yield exactly one success and one
chunk-scoped failure, leaving one row; loaded in the same chunk the
whole chunk fails (hence the spec's 3-line example loads 0 Entries with
1 failure); in every run the committed `example_id` and `sentence_id`
columns stay duplicate-free. -/
theorem C3_uniqueness (db : List BBQ) (e1 e2 : BBQ)
    (sdb sdb1 sc1 sc2 : List StereoSet) (sid : String)
    (hdb : (bbqIds db).Nodup) (hid : e1.example_id = e2.example_id)
    (hfresh : e1.example_id ∉ bbqIds db)
    (hssdb : (stereoSentIds sdb).Nodup)
    (hsid1 : sid ∈ stereoSentIds sc1) (hsid2 : sid ∈ stereoSentIds sc2)
    (hsins : insertStereoChunk sdb sc1 = some sdb1) :
    loadBBQChunks db [[e1], [e2]] = (db ++ [e1], [true, false])
    ∧ insertBBQChunk db [e1, e2] = none
    ∧ (∀ cs : List (List BBQ), (bbqIds (loadBBQChunks db cs).1).Nodup)
    ∧ loadStereoChunks sdb [sc1, sc2] = (sdb1, [true, false])
    ∧ insertStereoChunk sdb1 sc2 = none
    ∧ (∀ scs : List (List StereoSet),
        (stereoSentIds (loadStereoChunks sdb scs).1).Nodup) := by
  have hids1 : bbqIds (db ++ [e1]) = bbqIds db ++ [e1.example_id] := by
    rw [bbqIds_append]; rfl
  have hnd1 : (bbqIds (db ++ [e1])).Nodup := by
    rw [hids1, List.nodup_append]
    exact ⟨hdb, List.nodup_singleton _, by
      intro x hx hx2
      rw [List.mem_singleton] at hx2
      subst hx2
      exact hfresh hx⟩
  have hins1 : insertBBQChunk db [e1] = some (db ++ [e1]) := by
    unfold insertBBQChunk
    rw [if_pos hnd1]
  have hins2 : insertBBQChunk (db ++ [e1]) [e2] = none := by
    unfold insertBBQChunk
    rw [if_neg]
    intro hnd
    rw [bbqIds_append] at hnd
    rw [List.nodup_append] at hnd
    have hm1 : e2.example_id ∈ bbqIds (db ++ [e1]) := by
      rw [hids1]
      exact List.mem_append.mpr (Or.inr (by rw [← hid]; exact List.mem_singleton.mpr rfl))
    have hm2 : e2.example_id ∈ bbqIds [e2] := List.mem_singleton.mpr rfl
    exact hnd.2.2 hm1 hm2
  obtain ⟨rfl, _, _⟩ := insertStereoChunk_some sdb sc1 sdb1 hsins
  have hsdup : insertStereoChunk (sdb ++ sc1) sc2 = none := by
    refine insertStereoChunk_sent_dup (sdb ++ sc1) sc2 sid ?_ hsid2
    rw [stereoSentIds_append]
    exact List.mem_append.mpr (Or.inr hsid1)
  refine ⟨?_, insertBBQChunk_bad db [e1, e2] ?_,
    fun cs => loadBBQChunks_nodup db cs hdb, ?_, hsdup,
    fun scs => loadStereoChunks_sent_nodup sdb scs hssdb⟩
  · simp [loadBBQChunks, hins1, hins2]
  · intro hnd
    rw [show bbqIds [e1, e2] = [e1.example_id, e2.example_id] from rfl] at hnd
    rw [List.nodup_cons] at hnd
    exact hnd.1 (by rw [hid]; exact List.mem_singleton.mpr rfl)
  · simp [loadStereoChunks, hsins, hsdup]

/-- Compliance check of the amended C3 on concrete Entries and on two
concrete Documents whose Sentences share `sentence_id` s1. -/
theorem C3_uniqueness_witness :
    loadBBQChunks [] [[mkEntry 5], [mkEntry 5]] = ([] ++ [mkEntry 5], [true, false])
    ∧ insertBBQChunk [] [mkEntry 5, mkEntry 5] = none
    ∧ (∀ cs : List (List BBQ), (bbqIds (loadBBQChunks [] cs).1).Nodup)
    ∧ loadStereoChunks [] [[mkDocS "d1" "s1"], [mkDocS "d2" "s1"]]
      = ([mkDocS "d1" "s1"], [true, false])
    ∧ insertStereoChunk [mkDocS "d1" "s1"] [mkDocS "d2" "s1"] = none
    ∧ (∀ scs : List (List StereoSet),
        (stereoSentIds (loadStereoChunks [] scs).1).Nodup) :=
  C3_uniqueness [] (mkEntry 5) (mkEntry 5) [] [mkDocS "d1" "s1"]
    [mkDocS "d1" "s1"] [mkDocS "d2" "s1"] "s1" (by decide) rfl (by decide)
    (by decide) (by decide) (by decide) (by rfl)

/-- Claim C4: a chunk whose insert raises is rolled back and reported as
a chunk-scoped failure rather than re-raised: it fails against any table
state, every chunk of the source still receives an outcome, and the
table and the other chunks' outcomes are exactly those of the run
without the bad chunk, with one failure interleaved at its position. -/
theorem C4_chunk_isolation (db : List BBQ) (cs : List (List BBQ)) (k : Nat)
    (hk : k < cs.length) (hbad : ¬ (bbqIds (cs.get ⟨k, hk⟩)).Nodup) :
    (∀ d : List BBQ, insertBBQChunk d (cs.get ⟨k, hk⟩) = none)
    ∧ (loadBBQChunks db cs).2.length = cs.length
    ∧ (loadBBQChunks db cs).1 = (loadBBQChunks db (cs.eraseIdx k)).1
    ∧ (loadBBQChunks db cs).2
      = ((loadBBQChunks db (cs.eraseIdx k)).2).insertIdx k false :=
  ⟨fun d => insertBBQChunk_bad d _ hbad, loadBBQChunks_length db cs,
    (loadBBQChunks_skip db cs k hk hbad).1, (loadBBQChunks_skip db cs k hk hbad).2⟩

/-- Compliance check of C4: the first of two chunks is bad, the second
still loads. -/
theorem C4_chunk_isolation_witness :
    (∀ d : List BBQ, insertBBQChunk d [mkEntry 5, mkEntry 5] = none)
    ∧ (loadBBQChunks [] [[mkEntry 5, mkEntry 5], [mkEntry 7]]).2.length = 2
    ∧ (loadBBQChunks [] [[mkEntry 5, mkEntry 5], [mkEntry 7]]).1
      = (loadBBQChunks [] ([[mkEntry 5, mkEntry 5], [mkEntry 7]].eraseIdx 0)).1
    ∧ (loadBBQChunks [] [[mkEntry 5, mkEntry 5], [mkEntry 7]]).2
      = ((loadBBQChunks [] ([[mkEntry 5, mkEntry 5], [mkEntry 7]].eraseIdx 0)).2).insertIdx 0 false :=
  C4_chunk_isolation [] [[mkEntry 5, mkEntry 5], [mkEntry 7]] 0 (by decide) (by decide)

/-- Claim C5: a flat-category file with a malformed line (an invalid
JSON line, or one lacking a required field) fails parsing as a whole,
the orchestrator loads zero entities from that source and logs the
parse failure, and it continues with the remaining sources. -/
theorem C5_parse_isolation (fs : BBQDataset) (db : List BBQ)
    (log : List LogEvent) (cat : String) (rest : List String)
    (lines : List (Option Json)) (o : Option Json)
    (hfile : fs.files cat = some lines) (ho : o ∈ lines)
    (hbad : o.bind (parseLine cat) = none) :
    parse_bbq_file lines cat = none
    ∧ processCategory fs (db, log) cat = (db, log ++ [LogEvent.errorParse cat])
    ∧ loadCats fs (db, log) (cat :: rest)
      = loadCats fs (db, log ++ [LogEvent.errorParse cat]) rest := by
  have hp : parse_bbq_file lines cat = none :=
    parse_bbq_file_fail lines cat o ho hbad
  refine ⟨hp, ?_, ?_⟩
  · simp [processCategory, hfile, hp]
  · simp [loadCats, processCategory, hfile, hp]

/-- Compliance check of C5: the `Age` file has an unparseable second
line; the source is skipped and the next category still runs. -/
theorem C5_parse_isolation_witness :
    parse_bbq_file badFile "Age" = none
    ∧ processCategory fsA ([], []) "Age" = ([], [] ++ [LogEvent.errorParse "Age"])
    ∧ loadCats fsA ([], []) ("Age" :: ["SES"])
      = loadCats fsA ([], [] ++ [LogEvent.errorParse "Age"]) ["SES"] :=
  C5_parse_isolation fsA [] [] "Age" ["SES"] badFile none rfl
    (List.mem_cons_of_mem _ (List.mem_cons_self _ _)) rfl

/-- Claim C6: a missing family root directory is fatal (the loader
raises), whereas a missing individual source file is skipped with a
warning only — zero entities from it, no error event — and the
remaining sources are still processed. -/
theorem C6_missing_handling (fs1 fs2 : BBQDataset) (ss1 ss2 : StereoDataset)
    (db db2 : List BBQ) (sdb2 : List StereoSet) (log slog : List LogEvent)
    (cat : String) (rest : List String) (fe : String × String)
    (rest2 : List (String × String))
    (h1 : fs1.dirExists = false) (h2 : ss1.dirExists = false)
    (h3 : fs2.files cat = none) (h4 : ss2.files fe.1 = none) :
    load_bbq fs1 db = Except.error "BBQ directory not found"
    ∧ load_stereoset ss1 [] = Except.error "StereoSet directory not found"
    ∧ processCategory fs2 (db2, log) cat = (db2, log ++ [LogEvent.warnMissing cat])
    ∧ loadCats fs2 (db2, log) (cat :: rest)
      = loadCats fs2 (db2, log ++ [LogEvent.warnMissing cat]) rest
    ∧ processStereoFile ss2 (sdb2, slog) fe
      = (sdb2, slog ++ [LogEvent.warnMissing fe.1])
    ∧ loadStereoFiles ss2 (sdb2, slog) (fe :: rest2)
      = loadStereoFiles ss2 (sdb2, slog ++ [LogEvent.warnMissing fe.1]) rest2 := by
  refine ⟨?_, ?_, ?_, ?_, ?_, ?_⟩
  · simp [load_bbq, h1]
  · simp [load_stereoset, h2]
  · simp [processCategory, h3]
  · simp [loadCats, processCategory, h3]
  · simp [processStereoFile, h4]
  · simp [loadStereoFiles, processStereoFile, h4]

/-- Compliance check of C6 on concrete directory states. -/
theorem C6_missing_handling_witness :
    load_bbq { dirExists := false, files := fun _ => none } []
      = Except.error "BBQ directory not found"
    ∧ load_stereoset { dirExists := false, files := fun _ => none } []
      = Except.error "StereoSet directory not found"
    ∧ processCategory { dirExists := true, files := fun _ => none } ([], []) "Age"
      = ([], [] ++ [LogEvent.warnMissing "Age"])
    ∧ loadCats { dirExists := true, files := fun _ => none } ([], []) ("Age" :: ["SES"])
      = loadCats { dirExists := true, files := fun _ => none }
          ([], [] ++ [LogEvent.warnMissing "Age"]) ["SES"]
    ∧ processStereoFile { dirExists := true, files := fun _ => none } ([], [])
        ("intersentence.json", "intersentence")
      = ([], [] ++ [LogEvent.warnMissing "intersentence.json"])
    ∧ loadStereoFiles { dirExists := true, files := fun _ => none } ([], [])
        (("intersentence.json", "intersentence") :: [])
      = loadStereoFiles { dirExists := true, files := fun _ => none }
          ([], [] ++ [LogEvent.warnMissing "intersentence.json"]) [] :=
  C6_missing_handling { dirExists := false, files := fun _ => none }
    { dirExists := true, files := fun _ => none }
    { dirExists := false, files := fun _ => none }
    { dirExists := true, files := fun _ => none }
    [] [] [] [] [] "Age" ["SES"] ("intersentence.json", "intersentence") []
    rfl rfl rfl rfl

/-- Claim C7: the nested parser locates the document array under the
data section via the caller's discriminator key, accepted in lowercase
or capitalized form, and treats the whole data section as the array
when neither key is present. -/
theorem C7_discriminator (kvs rest : List (String × Json)) (et : String)
    (v w : Json) :
    selectSection (Json.obj (("data", Json.obj kvs) :: rest)) et
      = some (selectDocs kvs et)
    ∧ (dictGet? kvs et = some v → pyTruthy v = true → selectDocs kvs et = v)
    ∧ (dictGet? kvs et = none → dictGet? kvs (capitalize et) = some w →
        pyTruthy w = true → selectDocs kvs et = w)
    ∧ (dictGet? kvs et = none → dictGet? kvs (capitalize et) = none →
        selectDocs kvs et = Json.obj kvs) := by
  refine ⟨?_, ?_, ?_, ?_⟩
  · simp [selectSection, dictGetD, dictGet?]
  · intro hv ht
    have h1 : dictGetN kvs et = v := by simp [dictGetN, dictGetD, hv]
    rw [selectDocs, h1, pyOr]
    simp [ht]
  · intro hv hw ht
    have h1 : dictGetN kvs et = Json.null := by simp [dictGetN, dictGetD, hv]
    have h2 : dictGetN kvs (capitalize et) = w := by simp [dictGetN, dictGetD, hw]
    rw [selectDocs, h1, h2, pyOr, pyOr]
    rw [show pyTruthy Json.null = false from rfl]
    simp [ht]
  · intro hv hw
    have h1 : dictGetN kvs et = Json.null := by simp [dictGetN, dictGetD, hv]
    have h2 : dictGetN kvs (capitalize et) = Json.null := by
      simp [dictGetN, dictGetD, hw]
    rw [selectDocs, h1, h2]
    rfl

/-- Compliance check of C7 on three concrete data sections. -/
theorem C7_discriminator_witness :
    selectSection (Json.obj [("data", Json.obj lowerSection)]) "intersentence"
      = some (selectDocs lowerSection "intersentence")
    ∧ selectDocs lowerSection "intersentence" = Json.arr [Json.obj []]
    ∧ selectDocs upperSection "intersentence" = Json.arr [Json.obj []]
    ∧ selectDocs bareSection "intersentence" = Json.obj bareSection := by
  refine ⟨(C7_discriminator lowerSection [] "intersentence" Json.null Json.null).1,
    (C7_discriminator lowerSection [] "intersentence" (Json.arr [Json.obj []])
      Json.null).2.1 rfl rfl,
    (C7_discriminator upperSection [] "intersentence" Json.null
      (Json.arr [Json.obj []])).2.2.1 rfl ?_ rfl,
    (C7_discriminator bareSection [] "intersentence" Json.null
      Json.null).2.2.2 rfl ?_⟩
  · rfl
  · rfl

/-- Claim C8 counterexample: for a source whose single chunk fails, the
run log gains exactly the one insert-failure event and no
`Loaded N entries` report — the claim's "still reports the
successfully-loaded count" does not hold, since the count line lives in
the else-branch that runs only when no chunk failed. -/
theorem C8_counterexample :
    processCategory fsDup ([], []) "Age" = ([], [LogEvent.errorInsert "Age"])
    ∧ (processCategory fsDup ([], []) "Age").2.filter isLoadedReport = [] :=
  ⟨by rfl, by rfl⟩

/-- Helper for the log shape: a block of insert-failure events contains
no loaded-count report. -/
theorem filter_replicate_errorInsert (s : String) (n : Nat) :
    (List.replicate n (LogEvent.errorInsert s)).filter isLoadedReport = [] := by
  induction n with
  | zero => rfl
  | succ n ih => simp [List.replicate_succ, List.filter_cons, isLoadedReport, ih]

/-- Claim C8 (amended): for both source kinds — BBQ category files and
StereoSet type files — the orchestrator logs one failure event per
failed chunk; the `Loaded N` count is reported only when no chunk of the
source failed, in which case N counts exactly the rows added. -/
theorem C8_failure_logging (fs : BBQDataset) (db : List BBQ)
    (log : List LogEvent) (cat : String) (lines : List (Option Json))
    (entries : List BBQ) (ss : StereoDataset) (sdb : List StereoSet)
    (slog : List LogEvent) (sfe : String × String) (sraw : Option Json)
    (sentries : List StereoSet)
    (hfile : fs.files cat = some lines)
    (hp : parse_bbq_file lines cat = some entries)
    (hsfile : ss.files sfe.1 = some sraw)
    (hsp : parse_stereoset_file sraw sfe.2 = some sentries) :
    (0 < (loadBBQChunks db (chunks 1000 entries)).2.count false →
      processCategory fs (db, log) cat
        = ((loadBBQChunks db (chunks 1000 entries)).1,
           log ++ List.replicate
             ((loadBBQChunks db (chunks 1000 entries)).2.count false)
             (LogEvent.errorInsert cat))
      ∧ (log.filter isLoadedReport = [] →
          (processCategory fs (db, log) cat).2.filter isLoadedReport = []))
    ∧ ((loadBBQChunks db (chunks 1000 entries)).2.count false = 0 →
      processCategory fs (db, log) cat
        = (db ++ entries, log ++ [LogEvent.infoLoaded cat entries.length]))
    ∧ (0 < (loadStereoChunks sdb (chunks 1000 sentries)).2.count false →
      processStereoFile ss (sdb, slog) sfe
        = ((loadStereoChunks sdb (chunks 1000 sentries)).1,
           slog ++ List.replicate
             ((loadStereoChunks sdb (chunks 1000 sentries)).2.count false)
             (LogEvent.errorInsert sfe.1))
      ∧ (slog.filter isLoadedReport = [] →
          (processStereoFile ss (sdb, slog) sfe).2.filter isLoadedReport = []))
    ∧ ((loadStereoChunks sdb (chunks 1000 sentries)).2.count false = 0 →
      processStereoFile ss (sdb, slog) sfe
        = (sdb ++ sentries, slog ++ [LogEvent.infoLoaded sfe.1 sentries.length])) := by
  refine ⟨?_, ?_, ?_, ?_⟩
  · intro hpos
    have hne : ¬ (loadBBQChunks db (chunks 1000 entries)).2.count false = 0 := by
      omega
    have heq : processCategory fs (db, log) cat
        = ((loadBBQChunks db (chunks 1000 entries)).1,
           log ++ List.replicate
             ((loadBBQChunks db (chunks 1000 entries)).2.count false)
             (LogEvent.errorInsert cat)) := by
      simp [processCategory, hfile, hp, hne]
    refine ⟨heq, ?_⟩
    intro hclean
    rw [heq]
    simp [List.filter_append, hclean, filter_replicate_errorInsert]
  · intro hzero
    have hfinal : (loadBBQChunks db (chunks 1000 entries)).1 = db ++ entries := by
      rw [loadBBQChunks_no_fail db _ hzero,
        chunks_flatten 1000 (by omega) entries]
    simp [processCategory, hfile, hp, hzero, hfinal]
  · intro hpos
    have hne : ¬ (loadStereoChunks sdb (chunks 1000 sentries)).2.count false = 0 := by
      omega
    have heq : processStereoFile ss (sdb, slog) sfe
        = ((loadStereoChunks sdb (chunks 1000 sentries)).1,
           slog ++ List.replicate
             ((loadStereoChunks sdb (chunks 1000 sentries)).2.count false)
             (LogEvent.errorInsert sfe.1)) := by
      simp [processStereoFile, hsfile, hsp, hne]
    refine ⟨heq, ?_⟩
    intro hclean
    rw [heq]
    simp [List.filter_append, hclean, filter_replicate_errorInsert]
  · intro hzero
    have hfinal : (loadStereoChunks sdb (chunks 1000 sentries)).1 = sdb ++ sentries := by
      rw [loadStereoChunks_no_fail sdb _ hzero,
        chunks_flatten 1000 (by omega) sentries]
    simp [processStereoFile, hsfile, hsp, hzero, hfinal]

/-- Compliance check of the amended C8 on both families: each duplicate
file's single chunk fails; each log gains the one failure event and
never the count report. -/
theorem C8_failure_logging_witness :
    (processCategory fsDup ([], []) "Age"
      = ((loadBBQChunks [] (chunks 1000 [mkEntry 5, mkEntry 5, mkEntry 7])).1,
         [] ++ List.replicate
           ((loadBBQChunks []
              (chunks 1000 [mkEntry 5, mkEntry 5, mkEntry 7])).2.count false)
           (LogEvent.errorInsert "Age"))
    ∧ (([] : List LogEvent).filter isLoadedReport = [] →
        (processCategory fsDup ([], []) "Age").2.filter isLoadedReport = []))
    ∧ (processStereoFile ssDup ([], []) ("intersentence.json", "intersentence")
      = ((loadStereoChunks []
           (chunks 1000 [mkDocS "d1" "s1", mkDocS "d2" "s1"])).1,
         [] ++ List.replicate
           ((loadStereoChunks []
              (chunks 1000 [mkDocS "d1" "s1", mkDocS "d2" "s1"])).2.count false)
           (LogEvent.errorInsert "intersentence.json"))
    ∧ (([] : List LogEvent).filter isLoadedReport = [] →
        (processStereoFile ssDup ([], [])
          ("intersentence.json", "intersentence")).2.filter isLoadedReport = [])) :=
  ⟨(C8_failure_logging fsDup [] [] "Age" dupFile [mkEntry 5, mkEntry 5, mkEntry 7]
      ssDup [] [] ("intersentence.json", "intersentence") (some stereoDupRaw)
      [mkDocS "d1" "s1", mkDocS "d2" "s1"] rfl rfl rfl rfl).1 (by decide),
   (C8_failure_logging fsDup [] [] "Age" dupFile [mkEntry 5, mkEntry 5, mkEntry 7]
      ssDup [] [] ("intersentence.json", "intersentence") (some stereoDupRaw)
      [mkDocS "d1" "s1", mkDocS "d2" "s1"] rfl rfl rfl rfl).2.2.1 (by decide)⟩

/-- Claim C9: the discriminator fallback is triggered by falsiness, not
only key absence: a present-but-falsy (e.g. empty-array) lowercase entry
is skipped in favour of the capitalized key and then the whole data
section, and the selection never returns the empty array of a falsy
discriminator entry. -/
theorem C9_falsy_fallback (kvs : List (String × Json)) (et : String)
    (v : Json) (hv : dictGet? kvs et = some v) (hfalsy : pyTruthy v = false) :
    selectDocs kvs et = pyOr (dictGetN kvs (capitalize et)) (Json.obj kvs)
    ∧ (∀ (kvs2 : List (String × Json)) (et2 : String),
        selectDocs kvs2 et2 ≠ Json.arr []) := by
  constructor
  · simp [selectDocs, pyOr, dictGetN, dictGetD, hv, hfalsy]
  · intro kvs2 et2
    unfold selectDocs pyOr
    split
    · next ht =>
      intro heq
      rw [heq] at ht
      simp [pyTruthy] at ht
    · split
      · next ht =>
        intro heq
        rw [heq] at ht
        simp [pyTruthy] at ht
      · intro heq
        cases heq

/-- Compliance check of C9: the lowercase entry holds an empty array, so
selection moves on to the capitalized entry. -/
theorem C9_falsy_fallback_witness :
    selectDocs falsySection "intersentence"
      = pyOr (dictGetN falsySection (capitalize "intersentence"))
          (Json.obj falsySection)
    ∧ (∀ (kvs2 : List (String × Json)) (et2 : String),
        selectDocs kvs2 et2 ≠ Json.arr []) :=
  C9_falsy_fallback falsySection "intersentence" (Json.arr []) rfl rfl

/-- Claim C10: the Document table keys on the source-supplied string id
(taken verbatim from the raw document), so document ids are corpus-wide
unique: once a chunk holding a document with some id commits, any later
chunk holding a document with the same id — for instance the same
document arriving from the other type file — fails its load. -/
theorem C10_doc_id_unique (db db1 c1 c2 : List StereoSet)
    (d1 d2 : StereoSet) (h1 : d1 ∈ c1) (h2 : d2 ∈ c2)
    (hid : d1.id = d2.id) (hins : insertStereoChunk db c1 = some db1) :
    insertStereoChunk db1 c2 = none
    ∧ (∀ (et : String) (j : Json) (d : StereoSet),
        parseDoc et j = some d → getStr j "id" = some d.id) := by
  constructor
  · obtain ⟨rfl, _, _⟩ := insertStereoChunk_some db c1 db1 hins
    have hin : d2.id ∈ stereoDocIds (db ++ c1) := by
      unfold stereoDocIds
      rw [← hid]
      exact List.mem_map_of_mem _ (List.mem_append.mpr (Or.inr h1))
    exact insertStereoChunk_dup (db ++ c1) c2 d2 h2 hin
  · intro et j d h
    rw [parseDoc] at h
    obtain ⟨sj, hsj, h⟩ := bindSome h
    obtain ⟨ss, hss, h⟩ := bindSome h
    obtain ⟨sent, hsent, h⟩ := bindSome h
    obtain ⟨di, hdi, h⟩ := bindSome h
    obtain ⟨tg, htg, h⟩ := bindSome h
    obtain ⟨bt, hbt, h⟩ := bindSome h
    obtain ⟨cx, hcx, h⟩ := bindSome h
    cases h
    exact hdi

/-- Compliance check of C10: the same document in both chunks; the
second chunk's insert fails. -/
theorem C10_doc_id_unique_witness :
    insertStereoChunk [mkDoc "doc1"] [mkDoc "doc1"] = none
    ∧ (∀ (et : String) (j : Json) (d : StereoSet),
        parseDoc et j = some d → getStr j "id" = some d.id) :=
  C10_doc_id_unique [] [mkDoc "doc1"] [mkDoc "doc1"] [mkDoc "doc1"]
    (mkDoc "doc1") (mkDoc "doc1") (List.mem_singleton.mpr rfl)
    (List.mem_singleton.mpr rfl) rfl (by rfl)

end BiasIngest
